import Mathlib

/-!
Verification of the OpsAgent inventory reorder advisor.

This file contains a shallow embedding, in Lean 4, of the core of the
repository (`app/heuristics.py`, `app/data_utils.py`, `app/backtest.py`,
and the supplier-lookup loop of `app/api.py`), together with theorems
settling the specification claims about it.

Modelling conventions:
 - Python floats are modelled as exact rationals (`ℚ`).  The one genuinely
   irrational operation, `math.sqrt` inside `safety_stock`, is modelled over
   `ℝ` with `Real.sqrt`.
 - `datetime` values are modelled as rational day numbers; taking `.date()`
   of a datetime is modelled as `Int.floor` (truncation to the whole day).
 - Squares replace standard deviations where only causality and zero-ness
   matter: the reported rolling standard deviation is the square root of
   `roll_std_sq_feat` below, and a statistic of the form `sqrt (f xs)` is
   computed from exactly the observations that `f xs` is computed from.
 - Python `dict.get(k, 0)` inventory maps are modelled as total functions
   `ℕ → ℤ` that default to `0` outside their support.
 - A raising Python function is modelled with `Except`/`Option` results.
-/

namespace OpsAgent

/-- Inclusive range of calendar days `lo, lo+1, ..., hi` (empty when `hi < lo`);
models `pd.date_range(lo, hi, freq="D")`. -/
def dayRange (lo hi : ℤ) : List ℤ :=
  (List.range (hi + 1 - lo).toNat).map fun (k : ℕ) => lo + (k : ℤ)

/-! ## `app/heuristics.py` -/

/-- `safety_stock(sigma, lead_time_days, z)` (heuristics.py lines 18-21):
returns `0.0` when `lead_time_days <= 0`, else `z * sigma * sqrt(lead_time_days)`. -/
noncomputable def safety_stock (sigma lead_time_days z : ℝ) : ℝ :=
  if lead_time_days ≤ 0 then 0 else z * sigma * Real.sqrt lead_time_days

/-- `reorder_point(avg_daily, safety, lead_time_days)` (heuristics.py lines 24-25),
over exact rationals. -/
def reorder_point (avg_daily safety lead_time_days : ℚ) : ℚ :=
  avg_daily * lead_time_days + safety

/-- The rounding step of `recommended_qty_up_to_target` (heuristics.py lines 36-40):
round `qty` up to the nearest whole unit when `pack_size <= 1`, else up to the
nearest multiple of `pack_size`. -/
def roundToPack (pack_size : ℤ) (qty : ℚ) : ℤ :=
  if pack_size ≤ 1 then ⌈qty⌉ else ⌈qty / (pack_size : ℚ)⌉ * pack_size

/-- `recommended_qty_up_to_target` (heuristics.py lines 28-43). -/
def recommended_qty_up_to_target (current_stock target_stock : ℚ)
    (min_order_qty pack_size : ℤ) : ℤ :=
  let qty := max 0 (target_stock - current_stock)
  let qty_rounded := roundToPack pack_size qty
  if qty_rounded = 0 then 0 else max min_order_qty qty_rounded

/-- `days_of_cover` (heuristics.py lines 46-49): `None` when `avg_daily <= 0`. -/
def days_of_cover (current_stock avg_daily : ℚ) : Option ℚ :=
  if avg_daily ≤ 0 then none else some (current_stock / avg_daily)

/-- The four `reorder_reason` strings produced by `compute_recommendation`. -/
inductive ReorderReason where
  | current_stock_below_reorder_point
  | no_demand
  | within_lead_time
  | scheduled
deriving DecidableEq, Repr

/-- The `reorder_by_date` branch of `compute_recommendation` (heuristics.py
lines 83-100), as a function of the locally computed reorder point `rop`.
`as_of` is a datetime given as a rational day number and `.date()` is `⌊·⌋`.
In the `days_of_cover` branch the guard `avg_daily > 0` of line 93 always
holds (a `some` cover forces it), so the dead `float('inf')` alternative of
that line is not represented. -/
def reorderByDateCalc (current_stock rop avg_daily : ℚ) (lead_time_days : ℤ)
    (as_of : ℚ) : Option ℤ × ReorderReason :=
  if current_stock < rop then
    (some ⌊as_of⌋, ReorderReason.current_stock_below_reorder_point)
  else
    match days_of_cover current_stock avg_daily with
    | none => (none, ReorderReason.no_demand)
    | some cover =>
      let days_until_reorder := max 0 (cover - rop / avg_daily)
      let latest_order_in_days := days_until_reorder - (lead_time_days : ℚ)
      if latest_order_in_days ≤ 0 then
        (some ⌊as_of⌋, ReorderReason.within_lead_time)
      else
        (some ⌊as_of + latest_order_in_days⌋, ReorderReason.scheduled)

/-- Round-half-to-even to the nearest integer, the rounding used by Python's
builtin `round`. -/
def roundHalfEven (q : ℚ) : ℤ :=
  if q - ⌊q⌋ < 1/2 then ⌊q⌋
  else if 1/2 < q - ⌊q⌋ then ⌊q⌋ + 1
  else if Even ⌊q⌋ then ⌊q⌋ else ⌊q⌋ + 1

/-- Python's `round(x, 2)` (heuristics.py line 150), idealized over `ℚ`. -/
def round2 (q : ℚ) : ℚ := (roundHalfEven (q * 100) : ℚ) / 100

/-- The `info` dict built by `compute_recommendation` (heuristics.py
lines 107-120); `safety_val` holds the `safety_stock` value and `as_of_date`
the whole-day part of `as_of`. -/
structure RecInfo where
  sku : ℕ
  avg_daily : ℚ
  sigma : ℚ
  lead_time_days : ℤ
  safety_val : ℚ
  rop : ℚ
  current_stock : ℚ
  target_stock : ℚ
  recommended_qty : ℤ
  as_of_date : ℤ
  reorder_reason : ReorderReason
  pack_size : ℤ
deriving Repr

/-- `default_rationale_template` (heuristics.py lines 52-58).  Number
formatting (`:.2f` and friends) is modelled by `toString`; only the fact
that the template is a fixed non-empty deterministic sentence matters to
the claims. -/
def default_rationale_template (info : RecInfo) : String :=
  "Demand (avg daily) = " ++ (toString info.avg_daily ++
  (". Using lead time " ++ (toString info.lead_time_days ++
  (" days and demand volatility (sigma) = " ++ (toString info.sigma ++
  (", safety stock = " ++ (toString info.safety_val ++
  (". Reorder point = " ++ (toString info.rop ++
  (". Current stock is " ++ (toString info.current_stock ++
  (", so recommended order is " ++ (toString info.recommended_qty ++
  (" units to top up to target " ++ (toString info.target_stock ++ ".")))))))))))))))

/-- The prompt string handed to the injected text generator (heuristics.py
lines 125-138), modelled as a plain concatenation of the same quantities. -/
def llmPrompt (info : RecInfo) : String :=
  "Provide a short human-friendly explanation for a reorder recommendation. SKU: "
  ++ (toString info.sku ++
  (" Avg daily demand: " ++ (toString info.avg_daily ++
  (" Demand sigma: " ++ (toString info.sigma ++
  (" Lead time (days): " ++ (toString info.lead_time_days ++
  (" Safety stock: " ++ (toString info.safety_val ++
  (" Reorder point: " ++ (toString info.rop ++
  (" Current stock: " ++ (toString info.current_stock ++
  (" Pack size: " ++ (toString info.pack_size ++
  (" Recommended order: " ++ (toString info.recommended_qty ++
  (" Target (order-up-to): " ++ (toString info.target_stock ++
  " Return a single-sentence rationale.")))))))))))))))))))

/-- The rationale logic of `compute_recommendation` (heuristics.py lines
122-144).  The injected text generator is `Option (String → Option String)`:
`none` for an absent capability, and a call result of `none` for a raised
exception.  `.strip()` is `String.trim`; `if not rationale` treats both
`None` and the empty string as falsy. -/
def computeRationale (llm : Option (String → Option String))
    (prompt template : String) : String :=
  let rationale : Option String :=
    match llm with
    | none => none
    | some f =>
      match f prompt with
      | some s => some s.trim
      | none => none
  match rationale with
  | some s => if s = "" then template else s
  | none => template

/-- The result dict of `compute_recommendation` (heuristics.py lines 146-153). -/
structure RecResult where
  sku : ℕ
  recommended_qty : ℤ
  reorder_by_date : Option ℤ
  reorder_reason : ReorderReason
  confidence : ℚ
  rationale : String
deriving Repr

/-- The `info` dict as computed by `compute_recommendation`. -/
def coreInfo (sku : ℕ) (avg_daily sigma safety rop : ℚ) (lead_time_days : ℤ)
    (current_stock target_stock as_of : ℚ) (min_order_qty pack_size : ℤ) : RecInfo :=
  { sku := sku
    avg_daily := avg_daily
    sigma := sigma
    lead_time_days := lead_time_days
    safety_val := safety
    rop := rop
    current_stock := current_stock
    target_stock := target_stock
    recommended_qty :=
      recommended_qty_up_to_target current_stock target_stock min_order_qty pack_size
    as_of_date := ⌊as_of⌋
    reorder_reason :=
      (reorderByDateCalc current_stock rop avg_daily lead_time_days as_of).2
    pack_size := pack_size }

/-- `compute_recommendation` (heuristics.py lines 61-154) as a function of the
locally computed `safety = safety_stock(sigma, lead_time_days, z)` and
`rop = reorder_point(avg_daily, safety, lead_time_days)` of lines 78-79, which
are the only places the irrational `sqrt` and the parameter `z` enter; every
claim about `compute_recommendation` is stated for all values of `safety` and
`rop` and hence covers every reachable one.  All computation downstream of
line 79 is reproduced exactly: the recommended quantity (line 81), the
reorder-by-date branch (lines 83-100), the confidence (lines 102-105, rounded
to two decimals at line 150), and the rationale fallback (lines 122-144). -/
def compute_recommendation_core (sku : ℕ) (avg_daily sigma safety rop : ℚ)
    (lead_time_days : ℤ) (current_stock target_stock as_of : ℚ)
    (min_order_qty pack_size : ℤ) (llm : Option (String → Option String)) : RecResult :=
  let recQty := recommended_qty_up_to_target current_stock target_stock min_order_qty pack_size
  let rb := reorderByDateCalc current_stock rop avg_daily lead_time_days as_of
  let diff := max 0 (rop - current_stock)
  let denom := rop + 1
  let raw_conf := 1/2 + diff / denom
  let confidence := max 0 (min (99/100) raw_conf)
  let info := coreInfo sku avg_daily sigma safety rop lead_time_days
    current_stock target_stock as_of min_order_qty pack_size
  let rationale := computeRationale llm (llmPrompt info) (default_rationale_template info)
  { sku := sku
    recommended_qty := recQty
    reorder_by_date := rb.1
    reorder_reason := rb.2
    confidence := round2 confidence
    rationale := rationale }

/-! ## `app/data_utils.py` — feature builder -/

/-- Arithmetic mean of a list (pandas only evaluates it on non-empty
windows, `min_periods=1`; the empty case is junk-valued `0`). -/
def listMean (l : List ℚ) : ℚ :=
  if l.length = 0 then 0 else l.sum / (l.length : ℚ)

/-- Sample variance (pandas `.std(ddof=1)` squared).  On a window of at most
one observation pandas yields `NaN`, which `fillna(0)` later maps to `0`;
that case is therefore modelled directly as `0`. -/
def sampleVar (l : List ℚ) : ℚ :=
  if l.length ≤ 1 then 0
  else (l.map fun x => (x - listMean l) ^ 2).sum / ((l.length : ℚ) - 1)

/-- The pandas window at row `j` of `.rolling(window=w, min_periods=1)`:
the trailing `min (w, j+1)` observations ending at row `j`. -/
def rollWindow (w : ℕ) (xs : List ℚ) (j : ℕ) : List ℚ :=
  (xs.take (j + 1)).drop (j + 1 - w)

/-- `df["qty_sold"].rolling(window=w, min_periods=1).mean()` as a list,
for one product's date-ascending daily series `xs` (data_utils.py line 79). -/
def roll_mean_list (w : ℕ) (xs : List ℚ) : List ℚ :=
  (List.range xs.length).map fun j => listMean (rollWindow w xs j)

/-- `df["qty_sold"].rolling(window=w, min_periods=1).std()` squared, as a
list (data_utils.py line 80); see `sampleVar` for the `NaN` convention. -/
def roll_std_sq_list (w : ℕ) (xs : List ℚ) : List ℚ :=
  (List.range xs.length).map fun j => sampleVar (rollWindow w xs j)

/-- `.shift(1).fillna(0)` applied to a series (data_utils.py lines 79-80). -/
def shiftFillZero (l : List ℚ) : List ℚ := 0 :: l.dropLast

/-- The `roll_mean_{w}` feature that `compute_rolling_features` reports at
row (day) `i` of a product's series. -/
def roll_mean_feat (w : ℕ) (xs : List ℚ) (i : ℕ) : ℚ :=
  (shiftFillZero (roll_mean_list w xs)).getD i 0

/-- The square of the `roll_std_{w}` feature that `compute_rolling_features`
reports at row (day) `i` of a product's series. -/
def roll_std_sq_feat (w : ℕ) (xs : List ℚ) (i : ℕ) : ℚ :=
  (shiftFillZero (roll_std_sq_list w xs)).getD i 0

/-! ## `app/data_utils.py` — `aggregate_daily` -/

/-- One raw sales record (a row of `sales_df`). -/
structure SalesRec where
  date : ℤ
  sku : ℕ
  qty_sold : ℤ
deriving DecidableEq, Repr

/-- One row of the tidy daily grid produced by `aggregate_daily`. -/
structure DailyRec where
  date : ℤ
  sku : ℕ
  qty_sold : ℤ
deriving DecidableEq, Repr

/-- `sales_df["date"].min()` (junk `0` on an empty frame, where the real
code raises; theorems about non-degenerate inputs assume `rows ≠ []`). -/
def minDate : List SalesRec → ℤ
  | [] => 0
  | r :: rs => rs.foldl (fun m x => min m x.date) r.date

/-- `sales_df["date"].max()` (same convention as `minDate`). -/
def maxDate : List SalesRec → ℤ
  | [] => 0
  | r :: rs => rs.foldl (fun m x => max m x.date) r.date

/-- Total quantity sold at `(date, sku)` across all raw records. -/
def sumQtyAt (rows : List SalesRec) (d : ℤ) (s : ℕ) : ℤ :=
  ((rows.filter fun r => decide (r.date = d) && decide (r.sku = s)).map
    SalesRec.qty_sold).sum

/-- The distinct `(date, sku)` keys of the raw records, in first-occurrence
order (the ordering of `groupby` keys is immaterial to the claims). -/
def groupKeys (rows : List SalesRec) : List (ℤ × ℕ) :=
  (rows.map fun r => (r.date, r.sku)).dedup

/-- `sales_df.groupby(["date", "sku"], as_index=False)["qty_sold"].sum()`
(data_utils.py line 51): one row per distinct key, with summed quantity. -/
def dailyGroup (rows : List SalesRec) : List DailyRec :=
  (groupKeys rows).map fun k => ⟨k.1, k.2, sumQtyAt rows k.1 k.2⟩

/-- The per-sku `reindex(full_dates, fill_value=0)` of data_utils.py line 56:
one output row per date in `dates`, quantity looked up in the grouped frame
and `0` when the date is absent. -/
def reindexSku (daily : List DailyRec) (dates : List ℤ) (s : ℕ) : List DailyRec :=
  dates.map fun d =>
    match (daily.filter fun r => decide (r.sku = s)).find? (fun r => decide (r.date = d)) with
    | some r => ⟨d, s, r.qty_sold⟩
    | none => ⟨d, s, 0⟩

/-- The selected sku set of data_utils.py line 48: the explicit filter if
given, else the distinct skus present (the `sorted(...)` of the source only
permutes the per-sku blocks and is not modelled). -/
def selectedSkus (rows : List SalesRec) (sku_list : Option (List ℕ)) : List ℕ :=
  match sku_list with
  | some l => l
  | none => (rows.map SalesRec.sku).dedup

/-- `aggregate_daily(sales_df, sku_list)` (data_utils.py lines 33-63).
`cols` is the column set of the input frame; the function raises a
`ValueError` when `date` or `sku` is absent.  Output: the per-sku reindexed
blocks over the full day range, concatenated. -/
def aggregate_daily (cols : List String) (rows : List SalesRec)
    (sku_list : Option (List ℕ)) : Except String (List DailyRec) :=
  if "date" ∉ cols ∨ "sku" ∉ cols then
    Except.error "sales_df must contain date and sku columns"
  else
    let daily := dailyGroup rows
    let full_dates := dayRange (minDate rows) (maxDate rows)
    Except.ok (((selectedSkus rows sku_list).map fun s =>
      reindexSku daily full_dates s).flatten)

/-! ## `app/backtest.py` -/

/-- One outstanding order `(sku, arrival_date, qty)` (backtest.py line 59). -/
structure Order where
  sku : ℕ
  arrival : ℤ
  qty : ℤ
deriving DecidableEq, Repr

/-- One row of the backtest `history` (backtest.py lines 85-105). -/
structure HistRow where
  date : ℤ
  sku : ℕ
  demand : ℤ
  sold : ℤ
  stockout : ℤ
  inventory_end : ℤ
deriving DecidableEq, Repr

/-- The mutable state of the day-by-day loop: the `inventory` dict (total
function defaulting to `0`, mirroring `inventory.get(sku, 0)`), the
`outstanding` order list, and the accumulated `history` rows. -/
structure BState where
  inventory : ℕ → ℤ
  outstanding : List Order
  history : List HistRow

/-- The fixed inputs of one `run_backtest` call.  `salesSkus` is the sku set
of the (grid-completed) `daily` frame, so `daily[daily["date"]==cur]` holds
exactly one row per sku in it; `supSkus` is `suppliers_df["sku"].unique()`;
`demand` is the daily grid; `lead` is the per-sku `lead_time_days`;
`recommend cur sku stock` is the outcome of the `compute_recommendation`
call of lines 124-128 — `(recommended_qty, reorder_by_date)`, with `none`
when the sku is skipped because it has no feature row (line 115-116); its
internals are verified separately against `compute_recommendation_core`.
`firstDay` is the first simulated day, on which `hist_until_yesterday` is
empty and the decision step is skipped (lines 108-110). -/
structure BtParams where
  salesSkus : List ℕ
  supSkus : List ℕ
  demand : ℤ → ℕ → ℤ
  lead : ℕ → ℤ
  recommend : ℤ → ℕ → ℤ → Option (ℤ × Option ℤ)
  firstDay : ℤ

/-- The arrivals step (backtest.py lines 67-72): orders whose `arrival_date`
equals the current day are merged into inventory; the pending set keeps only
orders with `arrival_date` strictly later. -/
def receiveArrivals (cur : ℤ) (st : BState) : BState :=
  let arrivals := st.outstanding.filter fun o => decide (o.arrival = cur)
  let inv := arrivals.foldl
    (fun i o => Function.update i o.sku (i o.sku + o.qty)) st.inventory
  { st with
    inventory := inv
    outstanding := st.outstanding.filter fun o => decide (cur < o.arrival) }

/-- One iteration of the per-row demand loop (backtest.py lines 78-93):
the sku sells `min(inventory, demand)` and appends its history row. -/
def demandStep (p : BtParams) (cur : ℤ) (s : BState) (sku : ℕ) : BState :=
  let demand := p.demand cur sku
  let prev := s.inventory sku
  let sold := min prev demand
  { s with
    inventory := Function.update s.inventory sku (prev - sold)
    history := s.history ++
      [⟨cur, sku, demand, sold, demand - sold, prev - sold⟩] }

/-- The demand step (backtest.py lines 74-105): every sku with a demand row
today sells `min(inventory, demand)` and appends a history row; supplier
skus without a demand row append a zero-demand snapshot row. -/
def applyDemand (p : BtParams) (cur : ℤ) (st : BState) : BState :=
  let st1 := p.salesSkus.foldl (demandStep p cur) st
  { st1 with
    history := st1.history ++
      ((p.supSkus.filter fun s => decide (s ∉ p.salesSkus)).map fun s =>
        ⟨cur, s, 0, 0, 0, st1.inventory s⟩) }

/-- One iteration of the order-placement loop (backtest.py lines 114-135):
`inv` is the inventory snapshot the recommendations read. -/
def orderStep (p : BtParams) (cur : ℤ) (inv : ℕ → ℤ) (out : List Order)
    (sku : ℕ) : List Order :=
  match p.recommend cur sku (inv sku) with
  | none => out
  | some (_, none) => out
  | some (qty, some reorder_by) =>
    if 0 < qty ∧ reorder_by ≤ cur then
      out ++ [⟨sku, cur + p.lead sku, qty⟩]
    else out

/-- The decision step (backtest.py lines 107-135): skipped on the first day
(empty prior history); otherwise, for each supplier sku with a feature row,
an order of the recommended quantity is appended, arriving `lead` days
later, exactly when the quantity is positive and the recommended
`reorder_by_date` is on or before the current day. -/
def placeOrders (p : BtParams) (cur : ℤ) (st : BState) : BState :=
  if cur = p.firstDay then st
  else
    { st with
      outstanding := p.supSkus.foldl (orderStep p cur st.inventory) st.outstanding }

/-- One iteration of the day loop (backtest.py lines 66-135). -/
def backtestDay (p : BtParams) (cur : ℤ) (st : BState) : BState :=
  placeOrders p cur (applyDemand p cur (receiveArrivals cur st))

/-- The day loop over a list of days. -/
def runDays (p : BtParams) (days : List ℤ) (st : BState) : BState :=
  days.foldl (fun s d => backtestDay p d s) st

/-- `run_backtest` (backtest.py lines 36-135) from the initial inventory to
the end of the simulated range: empty pending set and history, then the day
loop over every calendar day. -/
def run_backtest (p : BtParams) (inv0 : ℕ → ℤ) (lastDay : ℤ) : BState :=
  runDays p (dayRange p.firstDay lastDay) ⟨inv0, [], []⟩

/-! ## `app/api.py` — the batch recommendation loop -/

/-- One supplier row (`suppliers.csv`). -/
structure Supplier where
  sku : ℕ
  lead_time_days : ℤ
  current_stock : ℚ
  target_stock : ℚ
  pack_size : Option ℤ
deriving Repr

/-- `suppliers[suppliers["sku"] == sku].iloc[0]` (api.py line 69): `none`
models the `IndexError` raised when the selection is empty. -/
def findSupplier (suppliers : List Supplier) (sku : ℕ) : Option Supplier :=
  suppliers.find? fun s => decide (s.sku = sku)

/-- The per-sku loop of `recommend` (api.py lines 64-97): for every sku in
the latest feature snapshot, look up its supplier row — aborting the whole
request with the `IndexError` when it is absent — and compute its
recommendation (`mk`, verified separately). -/
def recommendAll (suppliers : List Supplier) (mk : ℕ → Supplier → RecResult) :
    List ℕ → Except String (List RecResult)
  | [] => Except.ok []
  | sku :: rest =>
    match findSupplier suppliers sku with
    | none => Except.error "IndexError: single positional indexer is out-of-bounds"
    | some sup =>
      match recommendAll suppliers mk rest with
      | Except.ok l => Except.ok (mk sku sup :: l)
      | Except.error e => Except.error e

/-- Fixture: a text-generation capability whose every call raises. -/
def llmFail : String → Option String := fun _ => none

/-- Fixture: the column set of a well-formed sales frame. -/
def colsW : List String := ["date", "sku", "qty_sold"]

/-- Fixture: three raw sales records with a duplicate `(date, sku)` pair. -/
def rowsW : List SalesRec := [⟨0, 7, 2⟩, ⟨1, 7, 5⟩, ⟨0, 7, 3⟩]

/-- Fixture: the daily grid `aggregate_daily` produces from `rowsW`. -/
def outW : List DailyRec := [⟨0, 7, 5⟩, ⟨1, 7, 5⟩]

/-- Fixture: the backtest decision step specialised to `lead_time_days = 0`,
computed exactly as backtest.py lines 108-128 do: the window-14 rolling mean
of the demand series strictly before `cur` feeds `compute_recommendation`;
with a zero lead time `safety_stock` is exactly `0` (its `lead_time_days ≤ 0`
branch), so `rop = reorder_point avg 0 0` and no square root is involved. -/
def recommendLt0 (demand : ℤ → ℤ) (firstDay : ℤ) (target : ℚ) (cur : ℤ)
    (stock : ℤ) : ℤ × Option ℤ :=
  let series : List ℚ := (dayRange firstDay (cur - 1)).map fun d => ((demand d : ℤ) : ℚ)
  let avg := roll_mean_feat 14 series (series.length - 1)
  let rop := reorder_point avg 0 0
  (recommended_qty_up_to_target (stock : ℚ) target 1 1,
   (reorderByDateCalc (stock : ℚ) rop avg 0 (cur : ℚ)).1)

/-- Fixture: constant demand of 4 units per day. -/
def demX : ℤ → ℕ → ℤ := fun _ _ => 4

/-- Fixture: a one-product backtest with zero lead time, target stock 10,
no initial stock, driven by the real zero-lead-time decision step. -/
def pX : BtParams :=
  { salesSkus := [0]
    supSkus := [0]
    demand := demX
    lead := fun _ => 0
    recommend := fun cur _sku stock => some (recommendLt0 (fun d => demX d 0) 0 10 cur stock)
    firstDay := 0 }

/-- Fixture: the initial state of the `pX` backtest. -/
def initX : BState := ⟨fun _ => 0, [], []⟩

/-- Fixture: inert backtest parameters (no demand, no recommendations). -/
def pW : BtParams := ⟨[], [], fun _ _ => 0, fun _ => 0, fun _ _ _ => none, 0⟩

/-- Fixture: a state holding one pending order for sku 0, 3 units, due day 5. -/
def stW : BState := ⟨fun _ => 0, [⟨0, 5, 3⟩], []⟩

/-- Fixture: a backtest whose sales history covers skus 0 and 1 but whose
supplier table only covers sku 0; orders are always recommended due today. -/
def pC : BtParams :=
  { salesSkus := [0, 1]
    supSkus := [0]
    demand := fun _ s => if s = 0 then 2 else 3
    lead := fun _ => 1
    recommend := fun cur _ _ => some (5, some cur)
    firstDay := 0 }

/-- Fixture: initial inventory of the `pC` backtest — the supplier row gives
sku 0 a stock of 4; sku 1 has no supplier row, so `inventory.get(sku, 0)`
defaults it to 0. -/
def invC : ℕ → ℤ := fun s => if s = 0 then 4 else 0

/-- Fixture: an arbitrary per-sku recommendation builder for the API loop. -/
def mkW : ℕ → Supplier → RecResult :=
  fun _ _ => ⟨0, 0, none, ReorderReason.no_demand, 0, ""⟩

/-- Fixture: a constant initial inventory of 2 units. -/
def invW : ℕ → ℤ := fun _ => 2

/-! ## Theorems -/

/-- Evaluation helper: the ceiling of a rational, by sandwiching. -/
theorem ceil_eval {q : ℚ} {c : ℤ} (h1 : (c : ℚ) - 1 < q) (h2 : q ≤ (c : ℚ)) :
    ⌈q⌉ = c := by
  rw [Int.ceil_eq_iff]
  exact ⟨h1, h2⟩

/-- Evaluation helper: the floor of a rational, by sandwiching. -/
theorem floor_eval {q : ℚ} {c : ℤ} (h1 : (c : ℚ) ≤ q) (h2 : q < (c : ℚ) + 1) :
    ⌊q⌋ = c := by
  rw [Int.floor_eq_iff]
  exact ⟨h1, h2⟩

/-- C9: for every `sigma` and `z`, `safety_stock` returns exactly `0` when
`lead_time_days ≤ 0` and `z * sigma * sqrt(lead_time_days)` when
`lead_time_days > 0`; in particular `safety_stock(1.0, 4, z=1.0) = 2.0`. -/
theorem safety_stock_spec (sigma lead_time_days z : ℝ) :
    (lead_time_days ≤ 0 → safety_stock sigma lead_time_days z = 0) ∧
    (0 < lead_time_days →
      safety_stock sigma lead_time_days z = z * sigma * Real.sqrt lead_time_days) ∧
    safety_stock 1 4 1 = 2 := by
  refine ⟨fun h => if_pos h, fun h => if_neg (not_le.mpr h), ?_⟩
  have h4 : ¬ ((4 : ℝ) ≤ 0) := by norm_num
  unfold safety_stock
  rw [if_neg h4, one_mul, one_mul, show (4 : ℝ) = 2 ^ 2 by norm_num,
    Real.sqrt_sq (by norm_num : (0 : ℝ) ≤ 2)]

/-- Witness for C9 at concrete inputs. -/
theorem safety_stock_spec_witness :
    safety_stock 2 (-3) 5 = 0 ∧ safety_stock 1 4 1 = 2 :=
  ⟨(safety_stock_spec 2 (-3) 5).1 (by norm_num), (safety_stock_spec 1 4 1).2.2⟩

/-- C2: `recommended_qty_up_to_target` rounds the raw need
`max(0, target − current)` up to the nearest multiple of `pack_size` (the
least multiple at least the need, when `pack_size ≥ 1`; the nearest whole
unit when `pack_size ≤ 1`), returns `0` whenever the rounded quantity is
zero (`min_order_qty` never turns a zero-need order positive), and returns
`max(min_order_qty, rounded)` whenever the rounded quantity is positive. -/
theorem recommended_qty_spec (current_stock target_stock : ℚ)
    (min_order_qty pack_size : ℤ) :
    0 ≤ roundToPack pack_size (max 0 (target_stock - current_stock)) ∧
    (pack_size ≤ 1 →
      roundToPack pack_size (max 0 (target_stock - current_stock))
        = ⌈max 0 (target_stock - current_stock)⌉) ∧
    (1 ≤ pack_size →
      max 0 (target_stock - current_stock)
          ≤ (roundToPack pack_size (max 0 (target_stock - current_stock)) : ℚ) ∧
      pack_size ∣ roundToPack pack_size (max 0 (target_stock - current_stock)) ∧
      ∀ m : ℤ, pack_size ∣ m → max 0 (target_stock - current_stock) ≤ (m : ℚ) →
        roundToPack pack_size (max 0 (target_stock - current_stock)) ≤ m) ∧
    (roundToPack pack_size (max 0 (target_stock - current_stock)) = 0 →
      recommended_qty_up_to_target current_stock target_stock min_order_qty pack_size = 0) ∧
    (0 < roundToPack pack_size (max 0 (target_stock - current_stock)) →
      recommended_qty_up_to_target current_stock target_stock min_order_qty pack_size
        = max min_order_qty (roundToPack pack_size (max 0 (target_stock - current_stock)))) := by
  set q : ℚ := max 0 (target_stock - current_stock) with hq
  have hq0 : 0 ≤ q := le_max_left 0 _
  refine ⟨?_, ?_, ?_, ?_, ?_⟩
  · unfold roundToPack
    split_ifs with h
    · exact Int.ceil_nonneg hq0
    · push_neg at h
      have hp0 : (0 : ℤ) ≤ pack_size := (lt_trans zero_lt_one h).le
      have hpq : (0 : ℚ) < (pack_size : ℚ) := by exact_mod_cast lt_trans zero_lt_one h
      exact mul_nonneg (Int.ceil_nonneg (div_nonneg hq0 hpq.le)) hp0
  · intro h
    unfold roundToPack
    rw [if_pos h]
  · intro hp1
    by_cases hple : pack_size ≤ 1
    · have hpe : pack_size = 1 := le_antisymm hple hp1
      subst hpe
      unfold roundToPack
      rw [if_pos le_rfl]
      refine ⟨Int.le_ceil q, one_dvd _, fun m _ hm => Int.ceil_le.mpr hm⟩
    · push_neg at hple
      have hpq : (0 : ℚ) < (pack_size : ℚ) := by exact_mod_cast lt_trans zero_lt_one hple
      unfold roundToPack
      rw [if_neg (not_le.mpr hple)]
      refine ⟨?_, dvd_mul_left pack_size _, ?_⟩
      · have h1 : q / (pack_size : ℚ) ≤ (⌈q / (pack_size : ℚ)⌉ : ℚ) := Int.le_ceil _
        rw [div_le_iff₀ hpq] at h1
        push_cast
        exact h1
      · intro m hdvd hqm
        obtain ⟨k, hk⟩ := hdvd
        have hdk : q / (pack_size : ℚ) ≤ (k : ℚ) := by
          rw [div_le_iff₀ hpq]
          calc q ≤ (m : ℚ) := hqm
            _ = (k : ℚ) * (pack_size : ℚ) := by rw [hk]; push_cast; ring
        have hck : ⌈q / (pack_size : ℚ)⌉ ≤ k := Int.ceil_le.mpr hdk
        calc ⌈q / (pack_size : ℚ)⌉ * pack_size ≤ k * pack_size :=
              mul_le_mul_of_nonneg_right hck (by omega)
          _ = m := by rw [hk]; ring
  · intro h
    show (if roundToPack pack_size q = 0 then 0
          else max min_order_qty (roundToPack pack_size q)) = 0
    rw [h]
    simp
  · intro h
    show (if roundToPack pack_size q = 0 then 0
          else max min_order_qty (roundToPack pack_size q))
        = max min_order_qty (roundToPack pack_size q)
    rw [if_neg (by omega)]

/-- Witness for C2 at the spec's own examples: a raw need of 90 with pack
size 4 rounds up to 92, and a zero-need order stays 0 despite
`min_order_qty = 5`. -/
theorem recommended_qty_spec_witness :
    recommended_qty_up_to_target 10 100 1 4 = 92 ∧
    recommended_qty_up_to_target 100 100 5 1 = 0 := by
  have hc : roundToPack 4 (max 0 ((100 : ℚ) - 10)) = 92 := by
    unfold roundToPack
    rw [if_neg (by norm_num),
      show ⌈max 0 ((100 : ℚ) - 10) / ((4 : ℤ) : ℚ)⌉ = 23 from
        ceil_eval (by norm_num) (by norm_num)]
    decide
  have hz : roundToPack 1 (max 0 ((100 : ℚ) - 100)) = 0 := by
    unfold roundToPack
    rw [if_pos le_rfl,
      show ⌈max 0 ((100 : ℚ) - 100)⌉ = 0 from ceil_eval (by norm_num) (by norm_num)]
  constructor
  · have h := (recommended_qty_spec 10 100 1 4).2.2.2.2 (by rw [hc]; norm_num)
    rw [h, hc]
    decide
  · exact (recommended_qty_spec 100 100 5 1).2.2.2.1 hz

/-- Branch lemma: `current_stock < rop` forces an immediate deadline. -/
theorem reorderByDateCalc_below {current_stock rop avg_daily : ℚ} {lead_time_days : ℤ}
    {as_of : ℚ} (h : current_stock < rop) :
    reorderByDateCalc current_stock rop avg_daily lead_time_days as_of
      = (some ⌊as_of⌋, ReorderReason.current_stock_below_reorder_point) := by
  unfold reorderByDateCalc
  rw [if_pos h]

/-- Branch lemma: no deadline when demand is non-positive. -/
theorem reorderByDateCalc_no_demand {current_stock rop avg_daily : ℚ} {lead_time_days : ℤ}
    {as_of : ℚ} (h : ¬ current_stock < rop) (ha : avg_daily ≤ 0) :
    reorderByDateCalc current_stock rop avg_daily lead_time_days as_of
      = (none, ReorderReason.no_demand) := by
  unfold reorderByDateCalc days_of_cover
  rw [if_neg h, if_pos ha]

/-- Branch lemma: inside the lead-time window the deadline is today. -/
theorem reorderByDateCalc_within {current_stock rop avg_daily : ℚ} {lead_time_days : ℤ}
    {as_of : ℚ} (h : ¬ current_stock < rop) (ha : 0 < avg_daily)
    (hl : max 0 (current_stock / avg_daily - rop / avg_daily) - (lead_time_days : ℚ) ≤ 0) :
    reorderByDateCalc current_stock rop avg_daily lead_time_days as_of
      = (some ⌊as_of⌋, ReorderReason.within_lead_time) := by
  unfold reorderByDateCalc days_of_cover
  rw [if_neg h, if_neg (not_le.mpr ha)]
  simp only []
  rw [if_pos hl]

/-- Branch lemma: beyond the lead-time window the deadline is scheduled. -/
theorem reorderByDateCalc_scheduled {current_stock rop avg_daily : ℚ} {lead_time_days : ℤ}
    {as_of : ℚ} (h : ¬ current_stock < rop) (ha : 0 < avg_daily)
    (hl : 0 < max 0 (current_stock / avg_daily - rop / avg_daily) - (lead_time_days : ℚ)) :
    reorderByDateCalc current_stock rop avg_daily lead_time_days as_of
      = (some ⌊as_of + (max 0 (current_stock / avg_daily - rop / avg_daily)
            - (lead_time_days : ℚ))⌋, ReorderReason.scheduled) := by
  unfold reorderByDateCalc days_of_cover
  rw [if_neg h, if_neg (not_le.mpr ha)]
  simp only []
  rw [if_neg (not_le.mpr hl)]

/-- C3: `compute_recommendation` sets `reorder_by_date` to the as-of day when
`current_stock < rop`; to no deadline (reason `no_demand`) when stock is at
or above the reorder point and `avg_daily ≤ 0`; and otherwise, with
`days_until_reorder = max 0 (current_stock/avg_daily − rop/avg_daily)` and
`latest_order_in_days = days_until_reorder − lead_time_days`, to the as-of
day when `latest_order_in_days ≤ 0` (reason `within_lead_time`) and to
`as_of + latest_order_in_days` truncated to a whole day (reason
`scheduled`) otherwise. -/
theorem reorder_by_date_spec (sku : ℕ) (avg_daily sigma safety rop : ℚ)
    (lead_time_days : ℤ) (current_stock target_stock as_of : ℚ)
    (min_order_qty pack_size : ℤ) (llm : Option (String → Option String)) :
    (current_stock < rop →
      (compute_recommendation_core sku avg_daily sigma safety rop lead_time_days
          current_stock target_stock as_of min_order_qty pack_size llm).reorder_by_date
          = some ⌊as_of⌋ ∧
      (compute_recommendation_core sku avg_daily sigma safety rop lead_time_days
          current_stock target_stock as_of min_order_qty pack_size llm).reorder_reason
          = ReorderReason.current_stock_below_reorder_point) ∧
    (rop ≤ current_stock → avg_daily ≤ 0 →
      (compute_recommendation_core sku avg_daily sigma safety rop lead_time_days
          current_stock target_stock as_of min_order_qty pack_size llm).reorder_by_date
          = none ∧
      (compute_recommendation_core sku avg_daily sigma safety rop lead_time_days
          current_stock target_stock as_of min_order_qty pack_size llm).reorder_reason
          = ReorderReason.no_demand) ∧
    (rop ≤ current_stock → 0 < avg_daily →
      (max 0 (current_stock / avg_daily - rop / avg_daily) - (lead_time_days : ℚ) ≤ 0 →
        (compute_recommendation_core sku avg_daily sigma safety rop lead_time_days
            current_stock target_stock as_of min_order_qty pack_size llm).reorder_by_date
            = some ⌊as_of⌋ ∧
        (compute_recommendation_core sku avg_daily sigma safety rop lead_time_days
            current_stock target_stock as_of min_order_qty pack_size llm).reorder_reason
            = ReorderReason.within_lead_time) ∧
      (0 < max 0 (current_stock / avg_daily - rop / avg_daily) - (lead_time_days : ℚ) →
        (compute_recommendation_core sku avg_daily sigma safety rop lead_time_days
            current_stock target_stock as_of min_order_qty pack_size llm).reorder_by_date
            = some ⌊as_of + (max 0 (current_stock / avg_daily - rop / avg_daily)
                - (lead_time_days : ℚ))⌋ ∧
        (compute_recommendation_core sku avg_daily sigma safety rop lead_time_days
            current_stock target_stock as_of min_order_qty pack_size llm).reorder_reason
            = ReorderReason.scheduled)) := by
  have hrb : (compute_recommendation_core sku avg_daily sigma safety rop lead_time_days
      current_stock target_stock as_of min_order_qty pack_size llm).reorder_by_date
      = (reorderByDateCalc current_stock rop avg_daily lead_time_days as_of).1 := rfl
  have hrr : (compute_recommendation_core sku avg_daily sigma safety rop lead_time_days
      current_stock target_stock as_of min_order_qty pack_size llm).reorder_reason
      = (reorderByDateCalc current_stock rop avg_daily lead_time_days as_of).2 := rfl
  refine ⟨fun h => ?_, fun h ha => ?_, fun h ha => ⟨fun hl => ?_, fun hl => ?_⟩⟩
  · rw [hrb, hrr, reorderByDateCalc_below h]
    exact ⟨rfl, rfl⟩
  · rw [hrb, hrr, reorderByDateCalc_no_demand (not_lt.mpr h) ha]
    exact ⟨rfl, rfl⟩
  · rw [hrb, hrr, reorderByDateCalc_within (not_lt.mpr h) ha hl]
    exact ⟨rfl, rfl⟩
  · rw [hrb, hrr, reorderByDateCalc_scheduled (not_lt.mpr h) ha hl]
    exact ⟨rfl, rfl⟩

/-- Witness for C3: stock 10, demand 1/day, reorder point 2, lead time 3:
the deadline is scheduled 5 days out. -/
theorem reorder_by_date_spec_witness :
    (compute_recommendation_core 0 1 0 0 2 3 10 20 0 1 1 none).reorder_by_date
      = some 5 := by
  have h := ((reorder_by_date_spec 0 1 0 0 2 3 10 20 0 1 1 none).2.2
    (by norm_num) (by norm_num)).2 (by norm_num)
  rw [h.1, show ⌊(0 : ℚ) + (max 0 ((10 : ℚ) / 1 - 2 / 1) - ((3 : ℤ) : ℚ))⌋ = 5 from
    floor_eval (by norm_num) (by norm_num)]

/-- `roundHalfEven` never rounds below the floor. -/
theorem floor_le_roundHalfEven (q : ℚ) : ⌊q⌋ ≤ roundHalfEven q := by
  unfold roundHalfEven
  split_ifs <;> omega

/-- `roundHalfEven` never rounds above the ceiling. -/
theorem roundHalfEven_le_ceil (q : ℚ) : roundHalfEven q ≤ ⌈q⌉ := by
  have hup : (⌊q⌋ : ℚ) < q → ⌊q⌋ + 1 ≤ ⌈q⌉ := by
    intro hlt
    have h2 : q ≤ (⌈q⌉ : ℚ) := Int.le_ceil q
    have : (⌊q⌋ : ℚ) < (⌈q⌉ : ℚ) := lt_of_lt_of_le hlt h2
    have : ⌊q⌋ < ⌈q⌉ := by exact_mod_cast this
    omega
  unfold roundHalfEven
  split_ifs with h1 h2 h3
  · exact Int.floor_le_ceil q
  · exact hup (by linarith)
  · exact Int.floor_le_ceil q
  · exact hup (by push_neg at h1; linarith)

/-- C5 (amended): the confidence returned by `compute_recommendation` is
`clamp(0.5 + max(0, rop − current_stock) / (rop + 1), 0, 0.99)` rounded to
two decimal places; it lies in `[0, 0.99]`, never equals `1`, and is at
least `0.5` whenever `current_stock` is below a non-negative reorder
point. -/
theorem confidence_spec (sku : ℕ) (avg_daily sigma safety rop : ℚ)
    (lead_time_days : ℤ) (current_stock target_stock as_of : ℚ)
    (min_order_qty pack_size : ℤ) (llm : Option (String → Option String)) :
    (compute_recommendation_core sku avg_daily sigma safety rop lead_time_days
        current_stock target_stock as_of min_order_qty pack_size llm).confidence
      = round2 (max 0 (min (99/100) (1/2 + max 0 (rop - current_stock) / (rop + 1)))) ∧
    0 ≤ (compute_recommendation_core sku avg_daily sigma safety rop lead_time_days
        current_stock target_stock as_of min_order_qty pack_size llm).confidence ∧
    (compute_recommendation_core sku avg_daily sigma safety rop lead_time_days
        current_stock target_stock as_of min_order_qty pack_size llm).confidence ≤ 99/100 ∧
    (compute_recommendation_core sku avg_daily sigma safety rop lead_time_days
        current_stock target_stock as_of min_order_qty pack_size llm).confidence ≠ 1 ∧
    (current_stock < rop → 0 ≤ rop →
      1/2 ≤ (compute_recommendation_core sku avg_daily sigma safety rop lead_time_days
        current_stock target_stock as_of min_order_qty pack_size llm).confidence) := by
  have hc : (compute_recommendation_core sku avg_daily sigma safety rop lead_time_days
      current_stock target_stock as_of min_order_qty pack_size llm).confidence
      = round2 (max 0 (min (99/100) (1/2 + max 0 (rop - current_stock) / (rop + 1)))) := rfl
  set clamped : ℚ := max 0 (min (99/100) (1/2 + max 0 (rop - current_stock) / (rop + 1)))
    with hcl
  have hcl0 : 0 ≤ clamped := le_max_left 0 _
  have hcl99 : clamped ≤ 99/100 := by
    rw [hcl]
    rw [max_le_iff]
    exact ⟨by norm_num, min_le_left _ _⟩
  have hlow : 0 ≤ roundHalfEven (clamped * 100) := by
    have := floor_le_roundHalfEven (clamped * 100)
    have h0 : (0 : ℤ) ≤ ⌊clamped * 100⌋ := Int.floor_nonneg.mpr (by positivity)
    omega
  have hhigh : roundHalfEven (clamped * 100) ≤ 99 := by
    have := roundHalfEven_le_ceil (clamped * 100)
    have h99 : ⌈clamped * 100⌉ ≤ 99 := Int.ceil_le.mpr (by push_cast; nlinarith)
    omega
  have hr0 : 0 ≤ round2 clamped := by
    unfold round2
    positivity
  have hr99 : round2 clamped ≤ 99/100 := by
    unfold round2
    rw [div_le_div_iff₀ (by norm_num) (by norm_num)]
    have : ((roundHalfEven (clamped * 100) : ℤ) : ℚ) ≤ (99 : ℚ) := by exact_mod_cast hhigh
    linarith
  refine ⟨hc, by rw [hc]; exact hr0, by rw [hc]; exact hr99, ?_, ?_⟩
  · rw [hc]
    intro h1
    rw [h1] at hr99
    norm_num at hr99
  · intro hlt hrop
    rw [hc]
    have hden : (0 : ℚ) < rop + 1 := by linarith
    have hdiff : 0 ≤ max 0 (rop - current_stock) / (rop + 1) :=
      div_nonneg (le_max_left 0 _) hden.le
    have hraw : 1/2 ≤ 1/2 + max 0 (rop - current_stock) / (rop + 1) := by linarith
    have hclh : 1/2 ≤ clamped := by
      rw [hcl]
      refine le_trans (le_min (by norm_num) hraw) (le_max_right 0 _)
    have hfl : (50 : ℤ) ≤ ⌊clamped * 100⌋ := Int.le_floor.mpr (by push_cast; nlinarith)
    have h50 : (50 : ℤ) ≤ roundHalfEven (clamped * 100) := by
      have := floor_le_roundHalfEven (clamped * 100)
      omega
    unfold round2
    rw [le_div_iff₀ (by norm_num : (0:ℚ) < 100)]
    have : (50 : ℚ) ≤ ((roundHalfEven (clamped * 100) : ℤ) : ℚ) := by
      exact_mod_cast h50
    linarith

/-- Witness for C5 at a concrete depleted-stock input. -/
theorem confidence_spec_witness :
    1/2 ≤ (compute_recommendation_core 0 1 0 0 2 1 0 10 0 1 1 none).confidence :=
  (confidence_spec 0 1 0 0 2 1 0 10 0 1 1 none).2.2.2.2 (by norm_num) (by norm_num)

/-- Counterexample to C5 as stated: with `rop = 2` (reachable exactly, e.g.
`avg_daily = 2`, `sigma = 0`, `lead_time_days = 1`) and
`current_stock = 1.5`, the clamp formula yields `2/3` but the function
returns its two-decimal rounding `0.67`; moreover with a negative reorder
point `rop = -5` and `current_stock = -10 < rop` the returned confidence is
`0`, below `0.5`. -/
theorem confidence_counterexample :
    (compute_recommendation_core 0 2 0 0 2 1 (3/2) 10 0 1 1 none).confidence = 67/100 ∧
    max 0 (min (99/100) (1/2 + max 0 ((2 : ℚ) - 3/2) / (2 + 1))) = 2/3 ∧
    (67/100 : ℚ) ≠ 2/3 ∧
    (compute_recommendation_core 0 1 0 0 (-5) 1 (-10) 10 0 1 1 none).confidence = 0 ∧
    ((-10 : ℚ) < -5) ∧ ¬ ((1/2 : ℚ) ≤ 0) := by
  refine ⟨?_, by norm_num, by norm_num, by with_unfolding_all decide,
    by norm_num, by norm_num⟩
  have hc : (compute_recommendation_core 0 2 0 0 2 1 (3/2) 10 0 1 1 none).confidence
      = round2 (max 0 (min (99/100) (1/2 + max 0 ((2 : ℚ) - 3/2) / (2 + 1)))) := rfl
  rw [hc, show max (0:ℚ) (min (99/100) (1/2 + max 0 ((2 : ℚ) - 3/2) / (2 + 1))) = 2/3
    by norm_num]
  unfold round2 roundHalfEven
  rw [show (2/3 : ℚ) * 100 = 200/3 by norm_num,
    show ⌊(200/3 : ℚ)⌋ = 66 from floor_eval (by norm_num) (by norm_num),
    if_neg (by norm_num), if_pos (by norm_num)]
  norm_num

/-- A string with a non-empty left part is non-empty. -/
theorem append_ne_empty_left (a b : String) (ha : a.data ≠ []) : a ++ b ≠ "" := by
  intro h
  have hd := congrArg String.data h
  rw [String.data_append] at hd
  simp only [String.data] at hd
  exact ha (List.append_eq_nil.mp hd).1

/-- The deterministic fallback template is never the empty string. -/
theorem default_rationale_template_ne_empty (info : RecInfo) :
    default_rationale_template info ≠ "" := by
  unfold default_rationale_template
  exact append_ne_empty_left _ _ (by decide)

/-- `computeRationale` with no capability falls back to the template. -/
theorem computeRationale_none (p t : String) : computeRationale none p t = t := rfl

/-- `computeRationale` falls back to the template when the call raises. -/
theorem computeRationale_raise (f : String → Option String) (p t : String)
    (h : f p = none) : computeRationale (some f) p t = t := by
  show (match (match f p with | some s => some s.trim | none => none) with
        | some s => if s = "" then t else s
        | none => t) = t
  rw [h]

/-- `computeRationale` on a successful call strips the reply and falls back
to the template exactly when the stripped reply is empty. -/
theorem computeRationale_reply (f : String → Option String) (p t s : String)
    (h : f p = some s) :
    computeRationale (some f) p t = if s.trim = "" then t else s.trim := by
  show (match (match f p with | some r => some r.trim | none => none) with
        | some r => if r = "" then t else r
        | none => t) = if s.trim = "" then t else s.trim
  rw [h]

/-- C6: `compute_recommendation` always produces a non-empty rationale; when
the injected text generator is absent, raises, or returns a string that is
empty after stripping, the rationale is the deterministic template built
from the computed quantities, and no failure escapes to the caller. -/
theorem rationale_spec (sku : ℕ) (avg_daily sigma safety rop : ℚ)
    (lead_time_days : ℤ) (current_stock target_stock as_of : ℚ)
    (min_order_qty pack_size : ℤ) (llm : Option (String → Option String)) :
    (compute_recommendation_core sku avg_daily sigma safety rop lead_time_days
        current_stock target_stock as_of min_order_qty pack_size llm).rationale ≠ "" ∧
    (llm = none →
      (compute_recommendation_core sku avg_daily sigma safety rop lead_time_days
          current_stock target_stock as_of min_order_qty pack_size llm).rationale
        = default_rationale_template (coreInfo sku avg_daily sigma safety rop
            lead_time_days current_stock target_stock as_of min_order_qty pack_size)) ∧
    (∀ f : String → Option String, llm = some f →
      f (llmPrompt (coreInfo sku avg_daily sigma safety rop lead_time_days
          current_stock target_stock as_of min_order_qty pack_size)) = none →
      (compute_recommendation_core sku avg_daily sigma safety rop lead_time_days
          current_stock target_stock as_of min_order_qty pack_size llm).rationale
        = default_rationale_template (coreInfo sku avg_daily sigma safety rop
            lead_time_days current_stock target_stock as_of min_order_qty pack_size)) ∧
    (∀ (f : String → Option String) (s : String), llm = some f →
      f (llmPrompt (coreInfo sku avg_daily sigma safety rop lead_time_days
          current_stock target_stock as_of min_order_qty pack_size)) = some s →
      s.trim = "" →
      (compute_recommendation_core sku avg_daily sigma safety rop lead_time_days
          current_stock target_stock as_of min_order_qty pack_size llm).rationale
        = default_rationale_template (coreInfo sku avg_daily sigma safety rop
            lead_time_days current_stock target_stock as_of min_order_qty pack_size)) := by
  have hr : (compute_recommendation_core sku avg_daily sigma safety rop lead_time_days
      current_stock target_stock as_of min_order_qty pack_size llm).rationale
      = computeRationale llm
          (llmPrompt (coreInfo sku avg_daily sigma safety rop lead_time_days
            current_stock target_stock as_of min_order_qty pack_size))
          (default_rationale_template (coreInfo sku avg_daily sigma safety rop
            lead_time_days current_stock target_stock as_of min_order_qty pack_size)) := rfl
  have htm := default_rationale_template_ne_empty (coreInfo sku avg_daily sigma safety rop
    lead_time_days current_stock target_stock as_of min_order_qty pack_size)
  refine ⟨?_, ?_, ?_, ?_⟩
  · rw [hr]
    cases hllm : llm with
    | none => rw [computeRationale_none]; exact htm
    | some f =>
      cases hfp : f (llmPrompt (coreInfo sku avg_daily sigma safety rop lead_time_days
          current_stock target_stock as_of min_order_qty pack_size)) with
      | none => rw [computeRationale_raise f _ _ hfp]; exact htm
      | some s =>
        rw [computeRationale_reply f _ _ s hfp]
        by_cases he : s.trim = ""
        · rw [if_pos he]; exact htm
        · rw [if_neg he]; exact he
  · intro h
    rw [hr, h, computeRationale_none]
  · intro f h hfp
    rw [hr, h, computeRationale_raise f _ _ hfp]
  · intro f s h hfp he
    rw [hr, h, computeRationale_reply f _ _ s hfp, if_pos he]

/-- Witness for C6: a generator that raises on every call still yields the
deterministic template. -/
theorem rationale_spec_witness :
    (compute_recommendation_core 0 1 0 0 2 1 0 10 0 1 1 (some llmFail)).rationale
      = default_rationale_template (coreInfo 0 1 0 0 2 1 0 10 0 1 1) :=
  (rationale_spec 0 1 0 0 2 1 0 10 0 1 1 (some llmFail)).2.2.1 llmFail rfl rfl

/-- Evaluation of a shifted-and-zero-filled rolling statistic at a positive
row index: it is the statistic of the window ending at the previous row. -/
theorem shiftFill_feat_eval (f : List ℚ → ℚ) (w j : ℕ) (xs : List ℚ)
    (h : j + 1 < xs.length) :
    (shiftFillZero ((List.range xs.length).map fun k => f (rollWindow w xs k))).getD (j+1) 0
      = f (rollWindow w xs j) := by
  unfold shiftFillZero
  rw [List.getD_cons_succ]
  have hj : j < ((List.range xs.length).map fun k => f (rollWindow w xs k)).length - 1 := by
    simp only [List.length_map, List.length_range]
    omega
  rw [List.getD_eq_getElem?_getD, List.dropLast_eq_take, List.getElem?_take_of_lt hj,
    List.getElem?_map, List.getElem?_range (by omega)]
  rfl

/-- C1: the rolling features reported at row `i` of a product's daily series
are computed from the trailing `w` observations strictly before row `i`
(whatever shorter history exists when `i < w`); row `0` reports `0`, and the
standard deviation of a single prior sample is reported as `0` (its square
`roll_std_sq_feat` is `0`, hence so is its square root).  Consequently the
features at row `i` agree for any two series agreeing strictly before `i`. -/
theorem compute_rolling_features_causal (w i : ℕ) (xs : List ℚ)
    (hw : 1 ≤ w) (hi : i < xs.length) :
    (roll_mean_feat w xs i
        = if i = 0 then 0 else listMean ((xs.take i).drop (i - w))) ∧
    (roll_std_sq_feat w xs i
        = if i = 0 then 0 else sampleVar ((xs.take i).drop (i - w))) ∧
    (∀ ys : List ℚ, i < ys.length → xs.take i = ys.take i →
      roll_mean_feat w xs i = roll_mean_feat w ys i ∧
      roll_std_sq_feat w xs i = roll_std_sq_feat w ys i) ∧
    (i ≤ 1 → roll_std_sq_feat w xs i = 0) := by
  cases i with
  | zero =>
    refine ⟨rfl, rfl, fun ys hyl hxy => ⟨rfl, rfl⟩, fun _ => rfl⟩
  | succ j =>
    have hm : roll_mean_feat w xs (j+1) = listMean (rollWindow w xs j) :=
      shiftFill_feat_eval listMean w j xs hi
    have hs : roll_std_sq_feat w xs (j+1) = sampleVar (rollWindow w xs j) :=
      shiftFill_feat_eval sampleVar w j xs hi
    have hwin : rollWindow w xs j = (xs.take (j+1)).drop (j+1 - w) := rfl
    refine ⟨?_, ?_, ?_, ?_⟩
    · rw [hm, hwin, if_neg (Nat.succ_ne_zero j)]
    · rw [hs, hwin, if_neg (Nat.succ_ne_zero j)]
    · intro ys hyl hxy
      have hm2 : roll_mean_feat w ys (j+1) = listMean (rollWindow w ys j) :=
        shiftFill_feat_eval listMean w j ys hyl
      have hs2 : roll_std_sq_feat w ys (j+1) = sampleVar (rollWindow w ys j) :=
        shiftFill_feat_eval sampleVar w j ys hyl
      have hww : rollWindow w xs j = rollWindow w ys j := by
        rw [hwin, hxy]
        rfl
      exact ⟨by rw [hm, hm2, hww], by rw [hs, hs2, hww]⟩
    · intro hle
      have hj0 : j = 0 := by omega
      subst hj0
      rw [hs]
      have hlen : (rollWindow w xs 0).length ≤ 1 := by
        unfold rollWindow
        simp [List.length_take]
      unfold sampleVar
      rw [if_pos hlen]

/-- Witness for C1: a single-spike series — the rolling mean on the spike
day equals the pre-spike mean of the two prior observations. -/
theorem compute_rolling_features_causal_witness :
    roll_mean_feat 2 [5, 7, 100] 2 = 6 := by
  have h := (compute_rolling_features_causal 2 2 [5, 7, 100] (by norm_num)
    (by norm_num)).1
  rw [h, if_neg (by norm_num)]
  show listMean [5, 7] = 6
  unfold listMean
  norm_num [List.sum_cons]

/-- Membership in an inclusive day range. -/
theorem mem_dayRange {lo hi d : ℤ} : d ∈ dayRange lo hi ↔ lo ≤ d ∧ d ≤ hi := by
  constructor
  · intro h
    obtain ⟨k, hk, hkd⟩ := List.mem_map.mp h
    rw [List.mem_range] at hk
    have hx : 0 ≤ (k : ℤ) := Int.natCast_nonneg k
    have hklt : (k : ℤ) < hi + 1 - lo := Int.lt_toNat.mp hk
    rw [← hkd]
    exact ⟨by linarith, by linarith⟩
  · rintro ⟨h1, h2⟩
    apply List.mem_map.mpr
    refine ⟨(d - lo).toNat, List.mem_range.mpr ?_, ?_⟩
    · rw [Int.lt_toNat, Int.toNat_of_nonneg (by linarith)]
      linarith
    · rw [Int.toNat_of_nonneg (by linarith)]
      ring

/-- A day range has no duplicate days. -/
theorem dayRange_nodup (lo hi : ℤ) : (dayRange lo hi).Nodup :=
  List.Nodup.map (fun a b h => by omega) (List.nodup_range _)

/-- After grouping, the per-sku reindex of `aggregate_daily` assigns every
requested date the total input quantity at that `(date, sku)` key. -/
theorem reindexSku_dailyGroup (rows : List SalesRec) (dates : List ℤ) (s : ℕ) :
    reindexSku (dailyGroup rows) dates s
      = dates.map fun d => DailyRec.mk d s (sumQtyAt rows d s) := by
  unfold reindexSku
  refine List.map_congr_left fun d _ => ?_
  by_cases hk : (d, s) ∈ groupKeys rows
  · have he : (DailyRec.mk d s (sumQtyAt rows d s))
        ∈ (dailyGroup rows).filter fun r => decide (r.sku = s) := by
      rw [List.mem_filter]
      exact ⟨List.mem_map.mpr ⟨(d, s), hk, rfl⟩, by simp⟩
    cases hfind : ((dailyGroup rows).filter fun r => decide (r.sku = s)).find?
        (fun r => decide (r.date = d)) with
    | none =>
      exact absurd (by simp) (List.find?_eq_none.mp hfind _ he)
    | some r =>
      have hpr := List.find?_some hfind
      have hrm := List.mem_of_find?_eq_some hfind
      rw [List.mem_filter] at hrm
      obtain ⟨k, hkmem, hkr⟩ := List.mem_map.mp hrm.1
      have hsku : r.sku = s := by simpa using hrm.2
      have hdate : r.date = d := by simpa using hpr
      have hk1 : k.1 = d := by rw [← hkr] at hdate; exact hdate
      have hk2 : k.2 = s := by rw [← hkr] at hsku; exact hsku
      rw [← hkr, hk1, hk2]
  · have hnone : ((dailyGroup rows).filter fun r => decide (r.sku = s)).find?
        (fun r => decide (r.date = d)) = none := by
      rw [List.find?_eq_none]
      intro r hrm hpr
      rw [List.mem_filter] at hrm
      obtain ⟨k, hkmem, hkr⟩ := List.mem_map.mp hrm.1
      have hsku : r.sku = s := by simpa using hrm.2
      have hdate : r.date = d := by simpa using hpr
      apply hk
      have : k = (d, s) := by
        have h1 : k.1 = d := by rw [← hkr] at hdate; exact hdate
        have h2 : k.2 = s := by rw [← hkr] at hsku; exact hsku
        exact Prod.ext h1 h2
      rwa [← this]
    rw [hnone]
    have hz : sumQtyAt rows d s = 0 := by
      unfold sumQtyAt
      have hfil : (rows.filter fun r => decide (r.date = d) && decide (r.sku = s)) = [] := by
        rw [List.filter_eq_nil_iff]
        intro r hr hp
        simp only [Bool.and_eq_true, decide_eq_true_eq] at hp
        exact hk (List.mem_dedup.mpr
          (List.mem_map.mpr ⟨r, hr, by rw [hp.1, hp.2]⟩))
      rw [hfil]
      rfl
    rw [hz]

/-- A per-sku block for a different sku contributes nothing to the filter
at `(s, d)`. -/
theorem filter_block_ne (s s' : ℕ) (d : ℤ) (dates : List ℤ) (q : ℤ → ℤ)
    (hne : s' ≠ s) :
    ((dates.map fun d' => DailyRec.mk d' s' (q d')).filter
      fun r => decide (r.sku = s) && decide (r.date = d)) = [] := by
  rw [List.filter_eq_nil_iff]
  intro r hr
  obtain ⟨d', _, rfl⟩ := List.mem_map.mp hr
  simp [hne]

/-- A per-sku block over dates avoiding `d` contributes nothing to the
filter at `(s, d)`. -/
theorem filter_block_not_mem (s : ℕ) (d : ℤ) (dates : List ℤ) (q : ℤ → ℤ)
    (hd : d ∉ dates) :
    ((dates.map fun d' => DailyRec.mk d' s (q d')).filter
      fun r => decide (r.sku = s) && decide (r.date = d)) = [] := by
  rw [List.filter_eq_nil_iff]
  intro r hr
  obtain ⟨d', hd', rfl⟩ := List.mem_map.mp hr
  have hne : d' ≠ d := fun h => hd (h ▸ hd')
  simp [hne]

/-- A per-sku block over duplicate-free dates containing `d` contributes
exactly its `(s, d)` row. -/
theorem filter_block_eq (s : ℕ) (d : ℤ) (dates : List ℤ) (q : ℤ → ℤ)
    (hnd : dates.Nodup) (hd : d ∈ dates) :
    ((dates.map fun d' => DailyRec.mk d' s (q d')).filter
      fun r => decide (r.sku = s) && decide (r.date = d)) = [DailyRec.mk d s (q d)] := by
  induction dates with
  | nil => cases hd
  | cons d' ds ih =>
    rw [List.map_cons, List.filter_cons]
    by_cases hdd : d' = d
    · subst hdd
      rw [if_pos (by simp)]
      rw [filter_block_not_mem s d' ds q (List.nodup_cons.mp hnd).1]
    · rw [if_neg (by simp [hdd])]
      have hd2 : d ∈ ds := by
        rcases List.mem_cons.mp hd with h | h
        · exact absurd h.symm hdd
        · exact h
      exact ih (List.nodup_cons.mp hnd).2 hd2

/-- Filtering the concatenated per-sku blocks at a valid `(s, d)` key yields
exactly one row, holding that block's value at `d`. -/
theorem filter_flatten_blocks (s : ℕ) (d : ℤ) (skus : List ℕ) (dates : List ℤ)
    (q : ℕ → ℤ → ℤ) (hnd : skus.Nodup) (hs : s ∈ skus)
    (hdd : dates.Nodup) (hd : d ∈ dates) :
    ((skus.map fun s' => dates.map fun d' => DailyRec.mk d' s' (q s' d')).flatten).filter
      (fun r => decide (r.sku = s) && decide (r.date = d)) = [DailyRec.mk d s (q s d)] := by
  induction skus with
  | nil => cases hs
  | cons s' rest ih =>
    rw [List.map_cons, List.flatten_cons, List.filter_append]
    by_cases hss : s' = s
    · subst hss
      rw [filter_block_eq s' d dates (q s') hdd hd]
      have hnot : s' ∉ rest := (List.nodup_cons.mp hnd).1
      have hrest : ((rest.map fun s'' => dates.map fun d' =>
          DailyRec.mk d' s'' (q s'' d')).flatten).filter
          (fun r => decide (r.sku = s') && decide (r.date = d)) = [] := by
        rw [List.filter_eq_nil_iff]
        intro r hr
        rw [List.mem_flatten] at hr
        obtain ⟨blk, hblk, hrblk⟩ := hr
        obtain ⟨s'', hs'', rfl⟩ := List.mem_map.mp hblk
        obtain ⟨d', _, rfl⟩ := List.mem_map.mp hrblk
        have hne : s'' ≠ s' := fun h => hnot (h ▸ hs'')
        simp [hne]
      rw [hrest, List.append_nil]
    · rw [filter_block_ne s s' d dates (q s') hss, List.nil_append]
      have hs2 : s ∈ rest := by
        rcases List.mem_cons.mp hs with h | h
        · exact absurd h.symm hss
        · exact h
      exact ih (List.nodup_cons.mp hnd).2 hs2

/-- C8: `aggregate_daily` fails with a validation error when the `date` or
`sku` column is missing; otherwise (on a non-empty frame, with a
duplicate-free selection) every output row lies in the selection and the
observed date span, and for every selected product and every calendar day
from the global minimum to the global maximum date the output holds exactly
one row, whose quantity is the sum of all matching input quantities
(duplicates summed; days absent from the input get the empty sum `0`). -/
theorem aggregate_daily_spec (cols : List String) (rows : List SalesRec)
    (sku_list : Option (List ℕ)) :
    (("date" ∉ cols ∨ "sku" ∉ cols) →
      aggregate_daily cols rows sku_list
        = Except.error "sales_df must contain date and sku columns") ∧
    ("date" ∈ cols → "sku" ∈ cols → rows ≠ [] → (selectedSkus rows sku_list).Nodup →
      ∀ out, aggregate_daily cols rows sku_list = Except.ok out →
        (∀ r ∈ out, r.sku ∈ selectedSkus rows sku_list ∧
          minDate rows ≤ r.date ∧ r.date ≤ maxDate rows) ∧
        (∀ s ∈ selectedSkus rows sku_list, ∀ d : ℤ,
          minDate rows ≤ d → d ≤ maxDate rows →
          out.filter (fun r => decide (r.sku = s) && decide (r.date = d))
            = [DailyRec.mk d s (sumQtyAt rows d s)])) := by
  constructor
  · intro h
    unfold aggregate_daily
    rw [if_pos h]
  · intro hdc hsc _hne hnd out hout
    have hcond : ¬ ("date" ∉ cols ∨ "sku" ∉ cols) := by
      push_neg
      exact ⟨hdc, hsc⟩
    unfold aggregate_daily at hout
    rw [if_neg hcond] at hout
    obtain rfl : ((selectedSkus rows sku_list).map fun s =>
        reindexSku (dailyGroup rows) (dayRange (minDate rows) (maxDate rows)) s).flatten
        = out := Except.ok.inj hout
    have hblocks : ((selectedSkus rows sku_list).map fun s =>
        reindexSku (dailyGroup rows) (dayRange (minDate rows) (maxDate rows)) s)
        = (selectedSkus rows sku_list).map fun s =>
          (dayRange (minDate rows) (maxDate rows)).map fun d' =>
            DailyRec.mk d' s (sumQtyAt rows d' s) :=
      List.map_congr_left fun s _ => reindexSku_dailyGroup rows _ s
    constructor
    · intro r hr
      rw [List.mem_flatten] at hr
      obtain ⟨blk, hblk, hrblk⟩ := hr
      obtain ⟨s, hs, rfl⟩ := List.mem_map.mp hblk
      rw [reindexSku_dailyGroup] at hrblk
      obtain ⟨d, hd, rfl⟩ := List.mem_map.mp hrblk
      have hdr := mem_dayRange.mp hd
      exact ⟨hs, hdr.1, hdr.2⟩
    · intro s hs d hd1 hd2
      rw [hblocks]
      exact filter_flatten_blocks s d (selectedSkus rows sku_list)
        (dayRange (minDate rows) (maxDate rows))
        (fun s' d' => sumQtyAt rows d' s') hnd hs
        (dayRange_nodup _ _) (mem_dayRange.mpr ⟨hd1, hd2⟩)

/-- Witness for C8: on three records with a duplicate `(0, 7)` pair summing
to 5, the grid holds exactly one row per day for sku 7. -/
theorem aggregate_daily_spec_witness :
    outW.filter (fun r => decide (r.sku = 7) && decide (r.date = 0))
      = [DailyRec.mk 0 7 (sumQtyAt rowsW 0 7)] :=
  ((aggregate_daily_spec colsW rowsW none).2 (by decide) (by decide)
    (by decide) (by decide) outW rfl).2 7 (by decide) 0 (by decide) (by decide)

/-- Folding the arrival merges over a list of orders adds, per sku, the sum
of the quantities of that sku's orders in the list. -/
theorem foldl_update_sum (l : List Order) (inv : ℕ → ℤ) (sku : ℕ) :
    (l.foldl (fun i o => Function.update i o.sku (i o.sku + o.qty)) inv) sku
      = inv sku + ((l.filter fun o => decide (o.sku = sku)).map Order.qty).sum := by
  induction l generalizing inv with
  | nil => simp
  | cons o rest ih =>
    rw [List.foldl_cons, ih]
    by_cases h : o.sku = sku
    · subst h
      rw [List.filter_cons, if_pos (by simp), List.map_cons, List.sum_cons,
        Function.update_same]
      ring
    · rw [List.filter_cons, if_neg (by simp [h]),
        Function.update_noteq (fun hh => h hh.symm)]

/-- The arrivals step leaves exactly the strictly-later orders pending. -/
theorem receiveArrivals_outstanding (cur : ℤ) (st : BState) :
    (receiveArrivals cur st).outstanding
      = st.outstanding.filter fun o => decide (cur < o.arrival) := rfl

/-- The arrivals step adds to each sku's inventory exactly the total
quantity of that sku's orders arriving today. -/
theorem receiveArrivals_inventory (cur : ℤ) (st : BState) (sku : ℕ) :
    (receiveArrivals cur st).inventory sku
      = st.inventory sku + ((st.outstanding.filter fun o =>
          decide (o.arrival = cur) && decide (o.sku = sku)).map Order.qty).sum := by
  show ((st.outstanding.filter fun o => decide (o.arrival = cur)).foldl
      (fun i o => Function.update i o.sku (i o.sku + o.qty)) st.inventory) sku = _
  rw [foldl_update_sum, List.filter_filter]
  have hcomm : (fun (a : Order) => decide (a.sku = sku) && decide (a.arrival = cur))
      = fun (o : Order) => decide (o.arrival = cur) && decide (o.sku = sku) := by
    funext o
    rw [Bool.and_comm]
  rw [hcomm]

/-- The arrivals step does not touch the history. -/
theorem receiveArrivals_history (cur : ℤ) (st : BState) :
    (receiveArrivals cur st).history = st.history := rfl

/-- The demand loop does not touch the pending orders. -/
theorem foldl_demandStep_outstanding (p : BtParams) (cur : ℤ) (l : List ℕ)
    (st : BState) :
    (l.foldl (demandStep p cur) st).outstanding = st.outstanding := by
  induction l generalizing st with
  | nil => rfl
  | cons sku rest ih => rw [List.foldl_cons, ih]; rfl

/-- The demand step does not touch the pending orders. -/
theorem applyDemand_outstanding (p : BtParams) (cur : ℤ) (st : BState) :
    (applyDemand p cur st).outstanding = st.outstanding :=
  foldl_demandStep_outstanding p cur p.salesSkus st

/-- The decision step does not touch inventory. -/
theorem placeOrders_inventory (p : BtParams) (cur : ℤ) (st : BState) :
    (placeOrders p cur st).inventory = st.inventory := by
  unfold placeOrders
  split_ifs <;> rfl

/-- The decision step does not touch the history. -/
theorem placeOrders_history (p : BtParams) (cur : ℤ) (st : BState) :
    (placeOrders p cur st).history = st.history := by
  unfold placeOrders
  split_ifs <;> rfl

/-- One order-placement iteration only appends. -/
theorem orderStep_subset (p : BtParams) (cur : ℤ) (inv : ℕ → ℤ)
    (out : List Order) (sku : ℕ) : out ⊆ orderStep p cur inv out sku := by
  unfold orderStep
  cases p.recommend cur sku (inv sku) with
  | none => exact List.Subset.refl out
  | some pr =>
    rcases pr with ⟨qty, rby⟩
    cases rby with
    | none => exact List.Subset.refl out
    | some reorder_by =>
      dsimp only
      split_ifs
      · exact List.subset_append_left _ _
      · exact List.Subset.refl out

/-- The order-placement loop only appends. -/
theorem foldl_orderStep_subset (p : BtParams) (cur : ℤ) (inv : ℕ → ℤ)
    (l : List ℕ) (out : List Order) :
    out ⊆ l.foldl (orderStep p cur inv) out := by
  induction l generalizing out with
  | nil => exact List.Subset.refl out
  | cons sku rest ih =>
    rw [List.foldl_cons]
    exact (orderStep_subset p cur inv out sku).trans (ih _)

/-- Orders pending at the start of the decision step are still pending after it. -/
theorem placeOrders_keep (p : BtParams) (cur : ℤ) (st : BState) {o : Order}
    (ho : o ∈ st.outstanding) : o ∈ (placeOrders p cur st).outstanding := by
  unfold placeOrders
  split_ifs
  · exact ho
  · exact foldl_orderStep_subset p cur st.inventory p.supSkus st.outstanding ho

/-- An order due strictly later than the current day survives the whole day. -/
theorem backtestDay_keep (p : BtParams) (cur : ℤ) (st : BState) {o : Order}
    (ho : o ∈ st.outstanding) (harr : cur < o.arrival) :
    o ∈ (backtestDay p cur st).outstanding := by
  unfold backtestDay
  apply placeOrders_keep
  rw [applyDemand_outstanding, receiveArrivals_outstanding]
  exact List.mem_filter.mpr ⟨ho, by simp [harr]⟩

/-- An order due strictly after every processed day is still pending after
them all. -/
theorem runDays_keep (p : BtParams) (days : List ℤ) (st : BState) {o : Order}
    (ho : o ∈ st.outstanding) (hlt : ∀ d ∈ days, d < o.arrival) :
    o ∈ (runDays p days st).outstanding := by
  induction days generalizing st with
  | nil => exact ho
  | cons d rest ih =>
    unfold runDays
    rw [List.foldl_cons]
    exact ih (backtestDay p d st)
      (backtestDay_keep p d st ho (hlt d (List.mem_cons_self d rest)))
      fun d' hd' => hlt d' (List.mem_cons_of_mem d hd')

/-- C4 (amended): on every simulated day, each pending order whose
`arrival_date` equals the day is merged into its sku's inventory and
removed, and only orders with a strictly later `arrival_date` remain
pending — in particular an order whose `arrival_date` is already past
(which the simulator creates exactly when `lead_time_days ≤ 0`, since an
order placed on day `d` arrives on `d + lead_time_days` and the next
processed day is `d + 1`) is removed without being merged; an order due
strictly in the future survives each day and is hence still pending when
its arrival day starts, so every order with `lead_time_days ≥ 1` is merged
on its arrival day. -/
theorem backtest_order_lifecycle (p : BtParams) (st : BState) (cur : ℤ) :
    ((receiveArrivals cur st).outstanding
      = st.outstanding.filter (fun o => decide (cur < o.arrival)) ∧
     ∀ sku : ℕ, (receiveArrivals cur st).inventory sku
      = st.inventory sku + ((st.outstanding.filter fun o =>
          decide (o.arrival = cur) && decide (o.sku = sku)).map Order.qty).sum) ∧
    (∀ o : Order, o ∈ st.outstanding → cur < o.arrival →
      o ∈ (backtestDay p cur st).outstanding) ∧
    (∀ (o : Order) (lo : ℤ), o ∈ st.outstanding → lo ≤ o.arrival →
      o ∈ (runDays p (dayRange lo (o.arrival - 1)) st).outstanding) := by
  refine ⟨⟨receiveArrivals_outstanding cur st, receiveArrivals_inventory cur st⟩,
    fun o ho harr => backtestDay_keep p cur st ho harr,
    fun o lo ho hlo => runDays_keep p (dayRange lo (o.arrival - 1)) st ho ?_⟩
  intro d hd
  have := mem_dayRange.mp hd
  omega

/-- Witness for C4: a pending order due day 5 is still pending after the
days 2, 3 and 4 are simulated. -/
theorem backtest_order_lifecycle_witness :
    (⟨0, 5, 3⟩ : Order) ∈ (runDays pW (dayRange 2 ((5 : ℤ) - 1)) stW).outstanding :=
  (backtest_order_lifecycle pW stW 0).2.2 ⟨0, 5, 3⟩ 2 (by decide) (by decide)

/-- Counterexample to C4 as stated: in the `pX` backtest (zero lead time,
driven by the real decision computation), day 2 creates the order
`(sku 0, arrival day 2, qty 10)`; it is still pending when day 2 ends, and
the arrivals step of day 3 removes it (`o.arrival > cur` fails) without
merging it — sku 0's inventory stays 0, the 10 units are lost. -/
theorem backtest_order_drop_counterexample :
    (runDays pX (dayRange 0 2) initX).outstanding = [⟨0, 2, 10⟩] ∧
    (receiveArrivals 3 (runDays pX (dayRange 0 2) initX)).outstanding = [] ∧
    (receiveArrivals 3 (runDays pX (dayRange 0 2) initX)).inventory 0 = 0 := by
  refine ⟨?_, ?_, ?_⟩ <;> with_unfolding_all decide

/-- The demand loop only appends to the history. -/
theorem foldl_demandStep_history_mono (p : BtParams) (cur : ℤ) (l : List ℕ)
    (st : BState) : st.history ⊆ (l.foldl (demandStep p cur) st).history := by
  induction l generalizing st with
  | nil => exact List.Subset.refl _
  | cons sku rest ih =>
    rw [List.foldl_cons]
    refine List.Subset.trans ?_ (ih _)
    show st.history ⊆ st.history ++ _
    exact List.subset_append_left _ _

/-- Every sku in the demand loop gets a history row for the current day. -/
theorem foldl_demandStep_row (p : BtParams) (cur : ℤ) (l : List ℕ) (st : BState) :
    ∀ b ∈ l, ∃ r ∈ (l.foldl (demandStep p cur) st).history,
      r.date = cur ∧ r.sku = b := by
  induction l generalizing st with
  | nil => intro b hb; cases hb
  | cons sku rest ih =>
    intro b hb
    rw [List.foldl_cons]
    rcases List.mem_cons.mp hb with rfl | hb2
    · have hrow : (⟨cur, b, p.demand cur b, min (st.inventory b) (p.demand cur b),
          p.demand cur b - min (st.inventory b) (p.demand cur b),
          st.inventory b - min (st.inventory b) (p.demand cur b)⟩ : HistRow)
          ∈ (demandStep p cur st b).history := by
        show _ ∈ st.history ++ _
        exact List.mem_append_right _ (List.mem_singleton.mpr rfl)
      exact ⟨_, foldl_demandStep_history_mono p cur rest _ hrow, rfl, rfl⟩
    · exact ih _ b hb2

/-- Every sku with a demand row today gets a history row for the day. -/
theorem backtestDay_sales_row (p : BtParams) (cur : ℤ) (st : BState) (b : ℕ)
    (hb : b ∈ p.salesSkus) :
    ∃ r ∈ (backtestDay p cur st).history, r.date = cur ∧ r.sku = b := by
  obtain ⟨r, hr, hd, hs⟩ :=
    foldl_demandStep_row p cur p.salesSkus (receiveArrivals cur st) b hb
  refine ⟨r, ?_, hd, hs⟩
  unfold backtestDay
  rw [placeOrders_history]
  show r ∈ (p.salesSkus.foldl (demandStep p cur) (receiveArrivals cur st)).history ++ _
  exact List.mem_append_left _ hr

/-- Any property enjoyed by the initial pending orders and by every order
the placement guard can append holds of all orders after the loop. -/
theorem foldl_orderStep_forall (p : BtParams) (cur : ℤ) (inv : ℕ → ℤ)
    (Q : Order → Prop) (l : List ℕ) (out : List Order)
    (hout : ∀ o ∈ out, Q o)
    (hnew : ∀ sku ∈ l, ∀ qty : ℤ, 0 < qty → Q ⟨sku, cur + p.lead sku, qty⟩) :
    ∀ o ∈ l.foldl (orderStep p cur inv) out, Q o := by
  induction l generalizing out with
  | nil => exact hout
  | cons sku rest ih =>
    rw [List.foldl_cons]
    refine ih (orderStep p cur inv out sku) ?_
      fun s hs => hnew s (List.mem_cons_of_mem _ hs)
    intro o ho
    unfold orderStep at ho
    rcases hcase : p.recommend cur sku (inv sku) with _ | ⟨qty, rby⟩
    · rw [hcase] at ho
      exact hout o ho
    · rw [hcase] at ho
      rcases rby with _ | reorder_by
      · exact hout o ho
      · dsimp only at ho
        by_cases hg : 0 < qty ∧ reorder_by ≤ cur
        · rw [if_pos hg] at ho
          rcases List.mem_append.mp ho with h | h
          · exact hout o h
          · rcases List.mem_singleton.mp h with rfl
            exact hnew sku (List.mem_cons_self _ _) qty hg.1
        · rw [if_neg hg] at ho
          exact hout o ho

/-- The decision step only creates orders for supplier skus. -/
theorem placeOrders_sku_closed (p : BtParams) (cur : ℤ) (st : BState)
    (h : ∀ o ∈ st.outstanding, o.sku ∈ p.supSkus) :
    ∀ o ∈ (placeOrders p cur st).outstanding, o.sku ∈ p.supSkus := by
  unfold placeOrders
  split_ifs
  · exact h
  · exact foldl_orderStep_forall p cur st.inventory (fun o => o.sku ∈ p.supSkus)
      p.supSkus st.outstanding h (fun sku hs _ _ => hs)

/-- A full simulated day only creates orders for supplier skus. -/
theorem backtestDay_sku_closed (p : BtParams) (cur : ℤ) (st : BState)
    (h : ∀ o ∈ st.outstanding, o.sku ∈ p.supSkus) :
    ∀ o ∈ (backtestDay p cur st).outstanding, o.sku ∈ p.supSkus := by
  intro o ho
  unfold backtestDay at ho
  refine placeOrders_sku_closed p cur _ ?_ o ho
  intro o2 ho2
  rw [applyDemand_outstanding, receiveArrivals_outstanding] at ho2
  exact h o2 (List.mem_filter.mp ho2).1

/-- C7 (amended): in the batch recommendation path, a product present in the
latest feature snapshot but absent from the supplier table makes the whole
request fail with the lookup `IndexError`; the backtest does not fail: a
sales-only product is silently simulated — it receives a history row on
every simulated day (against the default inventory of 0) — and orders are
only ever created for supplier-table skus. -/
theorem missing_supplier_spec :
    (∀ (suppliers : List Supplier) (mk : ℕ → Supplier → RecResult)
        (salesSkus : List ℕ) (sku : ℕ), sku ∈ salesSkus →
      findSupplier suppliers sku = none →
      recommendAll suppliers mk salesSkus
        = Except.error "IndexError: single positional indexer is out-of-bounds") ∧
    (∀ (p : BtParams) (cur : ℤ) (st : BState) (b : ℕ), b ∈ p.salesSkus →
      ∃ r ∈ (backtestDay p cur st).history, r.date = cur ∧ r.sku = b) ∧
    (∀ (p : BtParams) (cur : ℤ) (st : BState),
      (∀ o ∈ st.outstanding, o.sku ∈ p.supSkus) →
      ∀ o ∈ (backtestDay p cur st).outstanding, o.sku ∈ p.supSkus) := by
  refine ⟨?_, backtestDay_sales_row, backtestDay_sku_closed⟩
  intro suppliers mk salesSkus sku hmem hnone
  induction salesSkus with
  | nil => cases hmem
  | cons a rest ih =>
    unfold recommendAll
    rcases List.mem_cons.mp hmem with rfl | h2
    · rw [hnone]
    · cases hfa : findSupplier suppliers a with
      | none => rfl
      | some sup =>
        rw [ih h2]

/-- Witness for C7: a request over an empty supplier table fails with the
lookup error. -/
theorem missing_supplier_spec_witness :
    recommendAll [] mkW [0]
      = Except.error "IndexError: single positional indexer is out-of-bounds" :=
  missing_supplier_spec.1 [] mkW [0] 0 (List.mem_singleton.mpr rfl) rfl

/-- Counterexample to C7 as stated: in the `pC` backtest, sku 1 appears in
the sales history but has no supplier row; the run completes without any
failure, sku 1 is simulated with default inventory 0 (its demand of 3 per
day is entirely unmet), and orders exist only for the supplier sku 0. -/
theorem missing_supplier_counterexample :
    (run_backtest pC invC 1).history
      = [⟨0, 0, 2, 2, 0, 2⟩, ⟨0, 1, 3, 0, 3, 0⟩,
         ⟨1, 0, 2, 2, 0, 0⟩, ⟨1, 1, 3, 0, 3, 0⟩] ∧
    (run_backtest pC invC 1).outstanding = [⟨0, 2, 5⟩] := by
  constructor <;> with_unfolding_all decide

/-- The demand loop keeps inventory non-negative and only appends rows with
non-negative closing inventory and `sold ≤ demand`. -/
theorem foldl_demandStep_inv (p : BtParams) (cur : ℤ) (l : List ℕ) (st : BState)
    (hinv : ∀ k, 0 ≤ st.inventory k) :
    (∀ k, 0 ≤ (l.foldl (demandStep p cur) st).inventory k) ∧
    (∀ r ∈ (l.foldl (demandStep p cur) st).history,
      r ∈ st.history ∨ (0 ≤ r.inventory_end ∧ r.sold ≤ r.demand)) := by
  induction l generalizing st with
  | nil => exact ⟨hinv, fun r hr => Or.inl hr⟩
  | cons sku rest ih =>
    rw [List.foldl_cons]
    have hinv1 : ∀ k, 0 ≤ (demandStep p cur st sku).inventory k := by
      intro k
      show 0 ≤ Function.update st.inventory sku
        (st.inventory sku - min (st.inventory sku) (p.demand cur sku)) k
      rw [Function.update_apply]
      split_ifs
      · have h1 := hinv sku
        have h2 := min_le_left (st.inventory sku) (p.demand cur sku)
        omega
      · exact hinv k
    obtain ⟨ha, hb⟩ := ih (demandStep p cur st sku) hinv1
    refine ⟨ha, fun r hr => ?_⟩
    rcases hb r hr with hmem | hok
    · have hmem2 : r ∈ st.history ++
          [(⟨cur, sku, p.demand cur sku, min (st.inventory sku) (p.demand cur sku),
            p.demand cur sku - min (st.inventory sku) (p.demand cur sku),
            st.inventory sku - min (st.inventory sku) (p.demand cur sku)⟩ : HistRow)] := hmem
      rcases List.mem_append.mp hmem2 with h | h
      · exact Or.inl h
      · rcases List.mem_singleton.mp h with rfl
        refine Or.inr ⟨?_, ?_⟩
        · show 0 ≤ st.inventory sku - min (st.inventory sku) (p.demand cur sku)
          have h1 := hinv sku
          have h2 := min_le_left (st.inventory sku) (p.demand cur sku)
          omega
        · show min (st.inventory sku) (p.demand cur sku) ≤ p.demand cur sku
          exact min_le_right _ _
    · exact Or.inr hok

/-- The arrivals step keeps inventory non-negative when all pending
quantities are non-negative. -/
theorem receiveArrivals_inv (cur : ℤ) (st : BState)
    (hinv : ∀ k, 0 ≤ st.inventory k) (hq : ∀ o ∈ st.outstanding, 0 ≤ o.qty) :
    ∀ k, 0 ≤ (receiveArrivals cur st).inventory k := by
  intro k
  rw [receiveArrivals_inventory]
  have hsum : 0 ≤ ((st.outstanding.filter fun o =>
      decide (o.arrival = cur) && decide (o.sku = k)).map Order.qty).sum := by
    apply List.sum_nonneg
    intro x hx
    obtain ⟨o, ho, rfl⟩ := List.mem_map.mp hx
    exact hq o (List.mem_filter.mp ho).1
  have h1 := hinv k
  omega

/-- The decision step only appends orders with positive quantity. -/
theorem placeOrders_qty (p : BtParams) (cur : ℤ) (st : BState)
    (h : ∀ o ∈ st.outstanding, 0 ≤ o.qty) :
    ∀ o ∈ (placeOrders p cur st).outstanding, 0 ≤ o.qty := by
  unfold placeOrders
  split_ifs
  · exact h
  · exact foldl_orderStep_forall p cur st.inventory (fun o => 0 ≤ o.qty)
      p.supSkus st.outstanding h (fun _ _ qty hq => hq.le)

/-- One simulated day preserves the safety invariants: non-negative
inventory, non-negative pending quantities, and well-formed history rows. -/
theorem backtestDay_inv (p : BtParams) (cur : ℤ) (st : BState)
    (hinv : ∀ k, 0 ≤ st.inventory k) (hq : ∀ o ∈ st.outstanding, 0 ≤ o.qty)
    (hh : ∀ r ∈ st.history, 0 ≤ r.inventory_end ∧ r.sold ≤ r.demand) :
    (∀ k, 0 ≤ (backtestDay p cur st).inventory k) ∧
    (∀ o ∈ (backtestDay p cur st).outstanding, 0 ≤ o.qty) ∧
    (∀ r ∈ (backtestDay p cur st).history,
      0 ≤ r.inventory_end ∧ r.sold ≤ r.demand) := by
  have hinv1 : ∀ k, 0 ≤ (receiveArrivals cur st).inventory k :=
    receiveArrivals_inv cur st hinv hq
  have hq1 : ∀ o ∈ (receiveArrivals cur st).outstanding, 0 ≤ o.qty := by
    intro o ho
    rw [receiveArrivals_outstanding] at ho
    exact hq o (List.mem_filter.mp ho).1
  obtain ⟨hinv2, hrows2⟩ :=
    foldl_demandStep_inv p cur p.salesSkus (receiveArrivals cur st) hinv1
  refine ⟨?_, ?_, ?_⟩
  · intro k
    unfold backtestDay
    rw [placeOrders_inventory]
    exact hinv2 k
  · intro o ho
    unfold backtestDay at ho
    refine placeOrders_qty p cur _ ?_ o ho
    intro o2 ho2
    rw [applyDemand_outstanding] at ho2
    exact hq1 o2 ho2
  · intro r hr
    unfold backtestDay at hr
    rw [placeOrders_history] at hr
    have hr2 : r ∈ (p.salesSkus.foldl (demandStep p cur) (receiveArrivals cur st)).history ++
        ((p.supSkus.filter fun s => decide (s ∉ p.salesSkus)).map fun s =>
          (⟨cur, s, 0, 0, 0, (p.salesSkus.foldl (demandStep p cur)
            (receiveArrivals cur st)).inventory s⟩ : HistRow)) := hr
    rcases List.mem_append.mp hr2 with h | h
    · rcases hrows2 r h with hmem | hok
      · exact hh r hmem
      · exact hok
    · obtain ⟨s, hs, rfl⟩ := List.mem_map.mp h
      exact ⟨hinv2 s, le_refl 0⟩

/-- The whole day loop preserves the safety invariants. -/
theorem runDays_inv (p : BtParams) (days : List ℤ) (st : BState)
    (hinv : ∀ k, 0 ≤ st.inventory k) (hq : ∀ o ∈ st.outstanding, 0 ≤ o.qty)
    (hh : ∀ r ∈ st.history, 0 ≤ r.inventory_end ∧ r.sold ≤ r.demand) :
    (∀ k, 0 ≤ (runDays p days st).inventory k) ∧
    (∀ o ∈ (runDays p days st).outstanding, 0 ≤ o.qty) ∧
    (∀ r ∈ (runDays p days st).history,
      0 ≤ r.inventory_end ∧ r.sold ≤ r.demand) := by
  induction days generalizing st with
  | nil => exact ⟨hinv, hq, hh⟩
  | cons d rest ih =>
    unfold runDays
    rw [List.foldl_cons]
    obtain ⟨h1, h2, h3⟩ := backtestDay_inv p d st hinv hq hh
    exact ih (backtestDay p d st) h1 h2 h3

/-- C10: a backtest started from non-negative initial stock never drives
inventory negative: every history row has `inventory_end ≥ 0` and
`sold ≤ demand`, the final inventory of every sku is non-negative, and
every pending order carries a non-negative quantity. -/
theorem run_backtest_inventory_safe (p : BtParams) (inv0 : ℕ → ℤ) (lastDay : ℤ)
    (h0 : ∀ sku, 0 ≤ inv0 sku) :
    (∀ r ∈ (run_backtest p inv0 lastDay).history,
      0 ≤ r.inventory_end ∧ r.sold ≤ r.demand) ∧
    (∀ sku, 0 ≤ (run_backtest p inv0 lastDay).inventory sku) ∧
    (∀ o ∈ (run_backtest p inv0 lastDay).outstanding, 0 ≤ o.qty) := by
  obtain ⟨h1, h2, h3⟩ := runDays_inv p (dayRange p.firstDay lastDay)
    ⟨inv0, [], []⟩ h0 (fun o ho => absurd ho (List.not_mem_nil o))
    (fun r hr => absurd hr (List.not_mem_nil r))
  exact ⟨h3, h1, h2⟩

/-- Witness for C10 on a concrete run. -/
theorem run_backtest_inventory_safe_witness :
    0 ≤ (run_backtest pW invW 1).inventory 0 :=
  (run_backtest_inventory_safe pW invW 1 (fun _ => by show (0:ℤ) ≤ 2; decide)).2.1 0

end OpsAgent
